import Mathlib

/-!
Verification of the face-recognizer backend (`apps/face_recognition/views.py`).

Shallow embedding: file contents are `String`s, the local scratch directory
(`UPLOAD_FOLDER`), the object store bucket and the persisted cache file
(`CACHE_FILE`) form an explicit state record, and every remote call
(Rekognition collection creation / indexing / search, S3 upload / download /
presign) is a field of an environment record returning `Except`, so that a
raised exception in the Python source is an `Except.error` here.
-/

namespace FaceRec

/-- File contents (a byte string). -/
abbrev Bytes := String

/-- The dedup cache: an insertion-ordered mapping from content fingerprint to
the external image id, as the Python `dict` loaded from `embeddings_cache.json`. -/
abbrev Cache := List (String × String)

/-- Errors raised by `rekognition.create_collection`:
`ResourceAlreadyExistsException` is distinguished because the source catches it. -/
inductive RekErr where
  | alreadyExists
  | other (msg : String)
  deriving DecidableEq, Repr

/-- Local and remote storage state.
`scratch` is the contents of `UPLOAD_FOLDER` (filename to bytes),
`s3` the bucket contents, `cacheFile` the raw text of `CACHE_FILE`
(`none` when the file does not exist). -/
structure St where
  scratch : List (String × Bytes)
  s3 : List (String × Bytes)
  cacheFile : Option String
  deriving DecidableEq, Repr

/-- Environment of remote services and configuration: each field models one
kind of remote call; `Except.error` is a raised exception. -/
structure Env where
  bucket : String
  region : String
  /-- `hashlib.md5(bytes).hexdigest()`: a deterministic digest of the bytes. -/
  hashFn : Bytes → String
  /-- `rekognition.create_collection(CollectionId=...)`. -/
  createCollection : Except RekErr Unit
  /-- `rekognition.index_faces(... ExternalImageId=filename ...)`. -/
  indexFaces : String → Except String Unit
  /-- `rekognition.search_faces_by_image(... Image={"Bytes": b} ...)`:
  the list of `ExternalImageId`s of the returned `FaceMatches`, in order. -/
  search : Bytes → Except String (List String)
  /-- `s3.generate_presigned_url(...)`: `none` when it raises. -/
  presign : String → Option String
  /-- `s3.upload_file(path, BUCKET_NAME, filename)`. -/
  putObject : String → Except String Unit
  /-- `s3.get_object(Bucket=..., Key=key)` followed by reading the body. -/
  getObject : String → Except String Bytes

/-- Write a file into the scratch directory, overwriting any file of that name
(as `open(path, "wb")` does). -/
def writeScratch (st : St) (name : String) (content : Bytes) : St :=
  { st with scratch := st.scratch.filter (fun e => e.1 ≠ name) ++ [(name, content)] }

/-- Read a scratch file's bytes; `none` when no such file exists. -/
def readScratch (st : St) (name : String) : Option Bytes :=
  (st.scratch.find? (fun e => e.1 = name)).map Prod.snd

/-- Store an object in the bucket under `key`, overwriting (as `s3.upload_file`
does on key collision). -/
def putBucket (st : St) (key : String) (content : Bytes) : St :=
  { st with s3 := st.s3.filter (fun e => e.1 ≠ key) ++ [(key, content)] }

/-! ### JSON encoding of the cache file

`load_cache` calls `json.load` and `save_cache` calls `json.dump(cache, f,
indent=2)`; the cache is a flat JSON object with string keys and string
values.  We embed a parser and printer for exactly that fragment. -/

/-- The `"` character. -/
def qChar : Char := Char.ofNat 34

/-- The opening-brace character. -/
def obChar : Char := Char.ofNat 123

/-- The closing-brace character. -/
def cbChar : Char := Char.ofNat 125

/-- Drop leading JSON whitespace. -/
def skipWs : List Char → List Char
  | c :: cs => if c = ' ' ∨ c = '\n' ∨ c = '\t' ∨ c = '\r' then skipWs cs else c :: cs
  | [] => []

/-- Consume the body of a JSON string up to its closing quote (the fragment
`json.dump` emits for hex digests and filenames has no escapes). -/
def takeStr : List Char → Option (String × List Char)
  | [] => none
  | c :: cs =>
    if c = qChar then some ("", cs)
    else match takeStr cs with
      | some (s, r) => some (String.mk [c] ++ s, r)
      | none => none

/-- Parse the members of a JSON object, positioned just after `{` or `,`;
`fuel` bounds recursion depth. -/
def parsePairs : Nat → List Char → Option (List (String × String) × List Char)
  | 0, _ => none
  | fuel + 1, cs =>
    match skipWs cs with
    | c :: rest =>
      if c = qChar then
        match takeStr rest with
        | some (k, rest2) =>
          match skipWs rest2 with
          | ':' :: rest3 =>
            match skipWs rest3 with
            | c2 :: rest4 =>
              if c2 = qChar then
                match takeStr rest4 with
                | some (v, rest5) =>
                  match skipWs rest5 with
                  | ',' :: rest6 =>
                    match parsePairs fuel rest6 with
                    | some (ps, r) => some ((k, v) :: ps, r)
                    | none => none
                  | c3 :: rest6 => if c3 = cbChar then some ([(k, v)], rest6) else none
                  | [] => none
                | none => none
              else none
            | [] => none
          | _ => none
        | none => none
      else none
    | [] => none

/-- Parse a complete flat JSON object of string keys and string values;
`none` models `json.load` raising `JSONDecodeError`. -/
def parseCacheJson (s : String) : Option Cache :=
  match skipWs s.data with
  | c :: rest =>
    if c = obChar then
      match skipWs rest with
      | c2 :: rest2 =>
        if c2 = cbChar then
          match skipWs rest2 with
          | [] => some []
          | _ => none
        else
          match parsePairs (s.length + 1) rest with
          | some (ps, r) =>
            match skipWs r with
            | [] => some ps
            | _ => none
          | none => none
      | [] => none
    else none
  | [] => none

/-- Quote a string as a JSON literal. -/
def jstr (s : String) : String := qChar.toString ++ s ++ qChar.toString

/-- The members of the object as printed by `json.dump(cache, f, indent=2)`. -/
def dumpEntries : Cache → String
  | [] => ""
  | [(k, v)] => "  " ++ jstr k ++ ": " ++ jstr v ++ "\n"
  | (k, v) :: rest => "  " ++ jstr k ++ ": " ++ jstr v ++ ",\n" ++ dumpEntries rest

/-- `json.dump(cache, f, indent=2)`: the serialized cache. -/
def dumpCache : Cache → String
  | [] => String.mk [obChar, cbChar]
  | c => obChar.toString ++ "\n" ++ dumpEntries c ++ cbChar.toString

/-! ### Cache handling (`load_cache`, `save_cache`) -/

/-- `load_cache()`: returns `{}` when `CACHE_FILE` does not exist, otherwise
parses it; a file that is not valid JSON makes `json.load` raise, which is
`Except.error` here. -/
def load_cache (st : St) : Except String Cache :=
  match st.cacheFile with
  | none => .ok []
  | some s =>
    match parseCacheJson s with
    | some c => .ok c
    | none => .error "json decode error"

/-- `save_cache(cache)`: rewrites `CACHE_FILE` with the serialized mapping. -/
def save_cache (st : St) (c : Cache) : St :=
  { st with cacheFile := some (dumpCache c) }

/-- `ensure_collection_exists()`: calls `create_collection` and swallows
`ResourceAlreadyExistsException`; any other exception propagates. -/
def ensure_collection_exists (env : Env) : Except String Unit :=
  match env.createCollection with
  | .ok () => .ok ()
  | .error .alreadyExists => .ok ()
  | .error (.other msg) => .error msg

/-- `file_hash(path)`: reads the file's bytes and digests them; raises when
the file does not exist. -/
def file_hash (env : Env) (st : St) (path : String) : Except String String :=
  match readScratch st path with
  | some b => .ok (env.hashFn b)
  | none => .error "file not found"

/-- Case-insensitive check of `filename.lower().endswith((".jpg", ".jpeg", ".png"))`,
computed over the filename's characters. -/
def hasImageExt (filename : String) : Bool :=
  let l := filename.data.map Char.toLower
  (".jpg".data.isSuffixOf l) || (".jpeg".data.isSuffixOf l) || (".png".data.isSuffixOf l)

/-! ### `index_faces_if_new` -/

/-- One pass of the loop body of `index_faces_if_new` over the remaining
paths, threading the in-memory cache and accumulating the list of filenames
for which an `index_faces` call was issued (successful or not).  Since every
saved path is `UPLOAD_FOLDER/filename`, paths are identified with their
basenames.  A missing file makes `file_hash` raise. -/
def index_loop (env : Env) (st : St) :
    List String → Cache → List String → Except String (Cache × List String)
  | [], c, calls => .ok (c, calls)
  | path :: rest, c, calls =>
    if ¬ hasImageExt path then index_loop env st rest c calls
    else
      match readScratch st path with
      | none => .error "file not found"
      | some bytes =>
        if (c.find? (fun e => e.1 = env.hashFn bytes)).isSome then
          index_loop env st rest c calls
        else
          match env.indexFaces path with
          | .ok () =>
            index_loop env st rest (c ++ [(env.hashFn bytes, path)]) (calls ++ [path])
          | .error _ => index_loop env st rest c (calls ++ [path])

/-- `index_faces_if_new(filepaths)`: load the cache, index each new image
(skipping non-image extensions, cache hits, and — with only a log line —
files whose `index_faces` call raises), then persist the cache once.
Returns the updated state and the list of attempted `index_faces` calls. -/
def index_faces_if_new (env : Env) (st : St) (filepaths : List String) :
    Except String (St × List String) :=
  match load_cache st with
  | .error e => .error e
  | .ok c =>
    match index_loop env st filepaths c [] with
    | .error e => .error e
    | .ok (c2, calls) => .ok (save_cache st c2, calls)

/-! ### The upload view (`upload_images`) -/

/-- An upload request: the HTTP method, the `gallery_images` files and the
optional `reference_image` file, each a (name, bytes) pair. -/
structure UploadReq where
  method : String
  gallery : List (String × Bytes)
  reference : Option (String × Bytes)
  deriving DecidableEq, Repr

/-- The responses the two views produce: a success JSON body
`{"matches": urls, "keys": keys}`, an error JSON body with its status, or a
zip attachment whose entries are (name, bytes) pairs in write order. -/
inductive HttpResponse where
  | json (matchUrls : List String) (keys : List String)
  | jsonError (status : Nat) (msg : String)
  | zipFile (entries : List (String × Bytes))
  deriving DecidableEq, Repr

/-- The gallery-saving loop: write each file to scratch, then
`upload_to_s3(path, filename)`; an upload exception propagates, leaving the
files written so far in place.  Returns the state, the saved paths
(basenames) and the outcome. -/
def saveGallery (env : Env) :
    St → List (String × Bytes) → List String → St × List String × Except String Unit
  | st, [], paths => (st, paths, .ok ())
  | st, (name, content) :: rest, paths =>
    let st1 := writeScratch st name content
    match env.putObject name with
    | .error e => (st1, paths ++ [name], .error e)
    | .ok () => saveGallery env (putBucket st1 name content) rest (paths ++ [name])

/-- The URL produced for one matched key: the presigned URL, or on a presign
exception the fixed public-style fallback
`https://BUCKET.s3.REGION.amazonaws.com/KEY`. -/
def urlFor (env : Env) (key : String) : String :=
  match env.presign key with
  | some u => u
  | none => "https://" ++ env.bucket ++ ".s3." ++ env.region ++ ".amazonaws.com/" ++ key

/-- `upload_images(request)`: the full view.  The first component is the
response (`Except.error` when an uncaught exception propagates out of the
view), the second the final storage state. -/
def upload_images (env : Env) (st : St) (req : UploadReq) :
    Except String HttpResponse × St :=
  if req.method ≠ "POST" then (.ok (.jsonError 400 "Invalid request"), st)
  else
    match ensure_collection_exists env with
    | .error e => (.error e, st)
    | .ok () =>
      if req.gallery = [] ∨ req.reference = none then
        (.ok (.jsonError 400 "Missing files"), st)
      else
        match saveGallery env st req.gallery [] with
        | (st1, _, .error e) => (.error e, st1)
        | (st1, savedPaths, .ok ()) =>
          match req.reference with
          | none => (.ok (.jsonError 400 "Missing files"), st1)
          | some (refName, refContent) =>
            match index_faces_if_new env (writeScratch st1 refName refContent) savedPaths with
            | .error e => (.error e, writeScratch st1 refName refContent)
            | .ok (st3, _) =>
              match readScratch st3 refName with
              | none => (.error "file not found", st3)
              | some refBytes =>
                match env.search refBytes with
                | .error e => (.error e, st3)
                | .ok allMatches =>
                  let keys := allMatches.filter (fun m => savedPaths.contains m)
                  let urls := keys.map (urlFor env)
                  let st4 := { st3 with scratch := [] }
                  (.ok (.json urls keys), st4)

/-! ### The zip view (`download_zip`) -/

/-- The zip-building loop: fetch each key in turn, appending an entry named
by the key for each successful fetch and silently skipping any key whose
fetch raises. -/
def buildZip (env : Env) (keys : List String) : List (String × Bytes) :=
  keys.foldl
    (fun acc k =>
      match env.getObject k with
      | .ok content => acc ++ [(k, content)]
      | .error _ => acc)
    []

/-- `download_zip(request)`: method check, JSON body parse (`body = none`
models a body `json.loads` rejects, `some keys` a parsed `data.get("keys", [])`),
empty-list check, then the in-memory zip response. -/
def download_zip (env : Env) (method : String) (body : Option (List String)) :
    HttpResponse :=
  if method ≠ "POST" then .jsonError 400 "Invalid request"
  else
    match body with
    | none => .jsonError 400 "Invalid JSON"
    | some keys =>
      if keys = [] then .jsonError 400 "No keys provided"
      else .zipFile (buildZip env keys)

/-! ### Helper lemmas -/

instance {ε α : Type} [DecidableEq ε] [DecidableEq α] : DecidableEq (Except ε α)
  | .ok a, .ok b => by
    cases decEq a b with
    | isTrue h => exact isTrue (by rw [h])
    | isFalse h => exact isFalse (by intro hc; cases hc; exact h rfl)
  | .ok _, .error _ => isFalse (by intro hc; cases hc)
  | .error _, .ok _ => isFalse (by intro hc; cases hc)
  | .error e, .error e2 => by
    cases decEq e e2 with
    | isTrue h => exact isTrue (by rw [h])
    | isFalse h => exact isFalse (by intro hc; cases hc; exact h rfl)

theorem find_filter_ne_append (n : String) (r : List (String × Bytes)) :
    ∀ l : List (String × Bytes),
      ((l.filter (fun e => e.1 ≠ n)) ++ r).find? (fun e => e.1 = n) =
        r.find? (fun e => e.1 = n)
  | [] => rfl
  | a :: l => by
    by_cases ha : a.1 = n
    · have hdrop : (decide ¬(a.1 = n)) = false := by simp [ha]
      simp only [ne_eq, List.filter_cons, hdrop, Bool.false_eq_true, if_false]
      exact find_filter_ne_append n r l
    · have hkeep : (decide ¬(a.1 = n)) = true := by simp [ha]
      simp only [ne_eq, List.filter_cons, hkeep, if_true, List.cons_append]
      rw [List.find?_cons_of_neg _ (by simp [ha])]
      exact find_filter_ne_append n r l

theorem readScratch_writeScratch_self (st : St) (n : String) (b : Bytes) :
    readScratch (writeScratch st n b) n = some b := by
  unfold readScratch writeScratch
  simp only
  rw [find_filter_ne_append]
  simp

theorem readScratch_eq_of_scratch_eq {st1 st2 : St} (h : st1.scratch = st2.scratch)
    (n : String) : readScratch st1 n = readScratch st2 n := by
  unfold readScratch; rw [h]

theorem index_faces_if_new_scratch (env : Env) (st : St) (ps : List String)
    (st2 : St) (calls : List String)
    (h : index_faces_if_new env st ps = .ok (st2, calls)) : st2.scratch = st.scratch := by
  unfold index_faces_if_new at h
  split at h
  · cases h
  · split at h
    · cases h
    · cases h
      rfl

theorem saveGallery_ok_paths (env : Env) :
    ∀ (g : List (String × Bytes)) (st : St) (acc : List String) (st2 : St)
      (p : List String), saveGallery env st g acc = (st2, p, .ok ()) →
      p = acc ++ g.map Prod.fst
  | [], st, acc, st2, p, h => by
    simp only [saveGallery] at h
    cases h
    simp
  | (name, content) :: rest, st, acc, st2, p, h => by
    simp only [saveGallery] at h
    split at h
    · simp at h
    · simpa using saveGallery_ok_paths env rest _ _ _ _ h

theorem index_loop_append (env : Env) (st : St) :
    ∀ (a b : List String) (c : Cache) (calls : List String),
      index_loop env st (a ++ b) c calls =
        match index_loop env st a c calls with
        | .ok (c1, t1) => index_loop env st b c1 t1
        | .error e => .error e
  | [], _, _, _ => rfl
  | p :: a, b, c, calls => by
    simp only [List.cons_append, index_loop]
    split
    · exact index_loop_append env st a b c calls
    · split
      · rfl
      · split
        · exact index_loop_append env st a b _ _
        · split
          · exact index_loop_append env st a b _ _
          · exact index_loop_append env st a b _ _

theorem index_loop_cache_extends (env : Env) (st : St) :
    ∀ (l : List String) (c : Cache) (calls t2 : List String) (c2 : Cache),
      index_loop env st l c calls = .ok (c2, t2) → ∃ tail, c2 = c ++ tail
  | [], c, calls, t2, c2, h => by
    cases h
    exact ⟨[], by simp⟩
  | p :: l, c, calls, t2, c2, h => by
    simp only [index_loop] at h
    split at h
    · exact index_loop_cache_extends env st l _ _ _ _ h
    · split at h
      · cases h
      · split at h
        · exact index_loop_cache_extends env st l _ _ _ _ h
        · split at h
          · obtain ⟨tail, htail⟩ := index_loop_cache_extends env st l _ _ _ _ h
            rw [List.append_assoc] at htail
            exact ⟨_, htail⟩
          · exact index_loop_cache_extends env st l _ _ _ _ h

theorem find_isSome_append {p : String × String → Bool} {l : List (String × String)}
    (hl : (l.find? p).isSome = true) (e : List (String × String)) :
    ((l ++ e).find? p).isSome = true := by
  rw [List.find?_append]
  cases hfind : l.find? p with
  | none => rw [hfind] at hl; simp at hl
  | some v => simp [hfind]

/-- The loop step on a cache hit: the file is skipped, nothing changes. -/
theorem index_loop_skip_hit (env : Env) (st : St) (p : String) (rest : List String)
    (c : Cache) (calls : List String) (bytes : Bytes)
    (hext : hasImageExt p = true) (hr : readScratch st p = some bytes)
    (hhit : (c.find? (fun e => e.1 = env.hashFn bytes)).isSome = true) :
    index_loop env st (p :: rest) c calls = index_loop env st rest c calls := by
  simp only [index_loop, hext, hr, hhit]
  simp

/-- The loop step on a cache miss with a successful `index_faces` call:
the call is issued and the fingerprint is recorded in the cache. -/
theorem index_loop_step_ok (env : Env) (st : St) (p : String) (rest : List String)
    (c : Cache) (calls : List String) (bytes : Bytes)
    (hext : hasImageExt p = true) (hr : readScratch st p = some bytes)
    (hmiss : c.find? (fun e => e.1 = env.hashFn bytes) = none)
    (hidx : env.indexFaces p = .ok ()) :
    index_loop env st (p :: rest) c calls =
      index_loop env st rest (c ++ [(env.hashFn bytes, p)]) (calls ++ [p]) := by
  simp only [index_loop, hext, hr, hmiss, hidx]
  simp

/-- The loop step on a cache miss whose `index_faces` call raises: the call
is issued, the exception is swallowed, the cache is left unchanged and the
loop continues. -/
theorem index_loop_step_err (env : Env) (st : St) (p : String) (rest : List String)
    (c : Cache) (calls : List String) (bytes : Bytes) (e : String)
    (hext : hasImageExt p = true) (hr : readScratch st p = some bytes)
    (hmiss : c.find? (fun en => en.1 = env.hashFn bytes) = none)
    (herr : env.indexFaces p = .error e) :
    index_loop env st (p :: rest) c calls = index_loop env st rest c (calls ++ [p]) := by
  simp only [index_loop, hext, hr, hmiss, herr]
  simp

/-- The loop never raises as long as every image-extension file it visits
is present in the scratch directory, whatever `index_faces` returns. -/
theorem index_loop_total (env : Env) (st : St) :
    ∀ (l : List String) (c : Cache) (calls : List String),
      (∀ q ∈ l, hasImageExt q = true → (readScratch st q).isSome = true) →
      ∃ c2 t2, index_loop env st l c calls = .ok (c2, t2)
  | [], c, calls, _ => ⟨c, calls, rfl⟩
  | p :: l, c, calls, hread => by
    simp only [index_loop]
    split
    · exact index_loop_total env st l c calls
        (fun q hq hq2 => hread q (List.mem_cons_of_mem _ hq) hq2)
    · rename_i hext
      have hext2 : hasImageExt p = true := by
        by_contra hc
        exact hext (by simpa using hc)
      have hps : (readScratch st p).isSome = true :=
        hread p (List.mem_cons_self _ _) hext2
      cases hrs : readScratch st p with
      | none => rw [hrs] at hps; simp at hps
      | some bytes =>
        by_cases hhit : (c.find? (fun en => en.1 = env.hashFn bytes)).isSome = true
        · simp only [hhit, if_true]
          exact index_loop_total env st l _ _
            (fun q hq hq2 => hread q (List.mem_cons_of_mem _ hq) hq2)
        · simp only [hhit, if_false, Bool.false_eq_true]
          cases hidx : env.indexFaces p with
          | ok u =>
            cases u
            exact index_loop_total env st l _ _
              (fun q hq hq2 => hread q (List.mem_cons_of_mem _ hq) hq2)
          | error e =>
            exact index_loop_total env st l _ _
              (fun q hq hq2 => hread q (List.mem_cons_of_mem _ hq) hq2)

/-- Characterization of a successful run of `upload_images`: the response
keys are the searched identifiers filtered by membership in this batch's
filenames, the URLs are their generated retrieval URLs, and the scratch
directory ends empty. -/
theorem upload_images_ok (env : Env) (st stf : St) (req : UploadReq)
    (urls keys : List String)
    (h : upload_images env st req = (.ok (.json urls keys), stf)) :
    ∃ refName refContent allM,
      req.reference = some (refName, refContent) ∧
      env.search refContent = .ok allM ∧
      keys = allM.filter (fun m => (req.gallery.map Prod.fst).contains m) ∧
      urls = keys.map (urlFor env) ∧
      stf.scratch = [] := by
  unfold upload_images at h
  split at h
  · simp at h
  split at h
  · simp at h
  split at h
  · simp at h
  split at h
  · simp at h
  rename_i st1 savedPaths heqSave
  split at h
  · simp at h
  rename_i refName refContent heqRef
  split at h
  · simp at h
  rename_i st3 calls heqIdx
  split at h
  · simp at h
  rename_i refBytes heqRead
  split at h
  · simp at h
  rename_i allM heqSearch
  simp only [Prod.mk.injEq, Except.ok.injEq, HttpResponse.json.injEq] at h
  obtain ⟨⟨hurls, hkeys⟩, hstf⟩ := h
  have hpaths : savedPaths = req.gallery.map Prod.fst := by
    simpa using saveGallery_ok_paths env req.gallery st [] st1 savedPaths heqSave
  have hscr3 : st3.scratch = (writeScratch st1 refName refContent).scratch :=
    index_faces_if_new_scratch env (writeScratch st1 refName refContent)
      savedPaths st3 calls heqIdx
  have hrb : refBytes = refContent := by
    have h1 : readScratch st3 refName = some refContent := by
      rw [readScratch_eq_of_scratch_eq hscr3]
      exact readScratch_writeScratch_self st1 refName refContent
    rw [heqRead] at h1
    exact (Option.some.injEq _ _ ▸ h1)
  refine ⟨refName, refContent, allM, heqRef, ?_, ?_, ?_, ?_⟩
  · rw [← hrb]
    exact heqSearch
  · rw [← hkeys, hpaths]
  · rw [← hurls, ← hkeys]
  · rw [← hstf]

theorem buildZip_foldl_aux (env : Env) :
    ∀ (keys : List String) (acc : List (String × Bytes)),
      keys.foldl
          (fun acc k =>
            match env.getObject k with
            | .ok content => acc ++ [(k, content)]
            | .error _ => acc)
          acc =
        acc ++ keys.filterMap
          (fun k =>
            match env.getObject k with
            | .ok content => some (k, content)
            | .error _ => none)
  | [], acc => by simp
  | k :: keys, acc => by
    simp only [List.foldl_cons, List.filterMap_cons]
    cases hobj : env.getObject k with
    | ok content =>
      rw [buildZip_foldl_aux env keys]
      simp
    | error e =>
      rw [buildZip_foldl_aux env keys]

/-- The zip loop, as a `filterMap`: one entry named by each key whose fetch
succeeds, in request order; failing keys are dropped. -/
theorem buildZip_eq_filterMap (env : Env) (keys : List String) :
    buildZip env keys =
      keys.filterMap
        (fun k =>
          match env.getObject k with
          | .ok content => some (k, content)
          | .error _ => none) := by
  unfold buildZip
  simpa using buildZip_foldl_aux env keys []

/-- The entry names of the zip are the successfully fetched keys, in order. -/
theorem buildZip_names (env : Env) (keys : List String) :
    (buildZip env keys).map Prod.fst = keys.filter (fun k => (env.getObject k).isOk) := by
  rw [buildZip_eq_filterMap]
  induction keys with
  | nil => rfl
  | cons k keys ih =>
    simp only [List.filterMap_cons, List.filter_cons]
    cases hobj : env.getObject k with
    | ok content => simp [Except.isOk, Except.toBool, ih]
    | error e => simp [Except.isOk, Except.toBool, ih]

/-! ### Concrete sample data (used by witnesses and counterexamples) -/

/-- A sample environment in which every remote call succeeds; the global
search returns `a.jpg` twice (two matched faces) plus `old.jpg`, an
identifier indexed by an earlier, unrelated request. -/
def env0 : Env where
  bucket := "bkt"
  region := "reg"
  hashFn := fun b => "h:" ++ b
  createCollection := .ok ()
  indexFaces := fun _ => .ok ()
  search := fun _ => .ok ["a.jpg", "old.jpg", "a.jpg"]
  presign := fun k => some ("https://signed/" ++ k)
  putObject := fun _ => .ok ()
  getObject := fun k => if k = "bad.jpg" then .error "NoSuchKey" else .ok ("obj:" ++ k)

/-- Initial storage: empty scratch directory, empty bucket, no cache file. -/
def st0 : St where
  scratch := []
  s3 := []
  cacheFile := none

/-- A sample upload request: two gallery files and a reference file. -/
def req0 : UploadReq where
  method := "POST"
  gallery := [("a.jpg", "A"), ("b.jpg", "B")]
  reference := some ("ref.jpg", "R")

/-- `env0` with the search call raising, as a remote service outage would. -/
def envSearchFail : Env := { env0 with search := fun _ => .error "ServiceFailure" }

/-- `env0` with every `index_faces` call raising. -/
def envIdxFail : Env := { env0 with indexFaces := fun _ => .error "Throttling" }

/-- Scratch directory holding two differently-named files with identical bytes. -/
def stDup : St where
  scratch := [("a.jpg", "X"), ("b.jpg", "X")]
  s3 := []
  cacheFile := none

/-- Storage whose persisted cache file exists but is not valid JSON. -/
def stCorrupt : St where
  scratch := []
  s3 := []
  cacheFile := some "not a json object"

/-- An upload request with gallery files but no reference file. -/
def reqMissingRef : UploadReq where
  method := "POST"
  gallery := [("a.jpg", "A")]
  reference := none

/-! ### Claims -/

/-- C1: for every upload request, every external identifier in the
response's `keys` list (and hence every URL in `matches`) names a file
uploaded in that same request's gallery batch; identifiers returned by the
global search that are not among the current batch's filenames are excluded
from the response. -/
theorem C1_keys_scoped_to_batch (env : Env) (st : St) (req : UploadReq)
    (urls keys : List String)
    (h : (upload_images env st req).1 = .ok (.json urls keys)) :
    ∀ k ∈ keys, k ∈ req.gallery.map Prod.fst := by
  rcases hu : upload_images env st req with ⟨res, stf⟩
  rw [hu] at h
  have h2 : res = Except.ok (HttpResponse.json urls keys) := h
  rw [h2] at hu
  obtain ⟨rn, rc, allM, _, _, hkeys, _, _⟩ :=
    upload_images_ok env st stf req urls keys hu
  subst hkeys
  intro k hk
  exact List.elem_iff.mp (List.mem_filter.mp hk).2

theorem C1_witness : "a.jpg" ∈ req0.gallery.map Prod.fst :=
  C1_keys_scoped_to_batch env0 st0 req0
    ["https://signed/a.jpg", "https://signed/a.jpg"] ["a.jpg", "a.jpg"] (by decide)
    "a.jpg" (by decide)

/-- C2: for every successful upload request, the `matches` URL list and the
`keys` list have equal length, and the URL at each position is the retrieval
URL generated for the key at the same position. -/
theorem C2_urls_keys_aligned (env : Env) (st : St) (req : UploadReq)
    (urls keys : List String)
    (h : (upload_images env st req).1 = .ok (.json urls keys)) :
    urls.length = keys.length ∧
    ∀ (i : Nat) (hi : i < urls.length) (hk : i < keys.length),
      urls.get ⟨i, hi⟩ = urlFor env (keys.get ⟨i, hk⟩) := by
  rcases hu : upload_images env st req with ⟨res, stf⟩
  rw [hu] at h
  have h2 : res = Except.ok (HttpResponse.json urls keys) := h
  rw [h2] at hu
  obtain ⟨rn, rc, allM, _, _, _, hurls, _⟩ :=
    upload_images_ok env st stf req urls keys hu
  subst hurls
  constructor
  · simp
  · intro i hi hk
    simp [List.get_eq_getElem, List.getElem_map]

theorem C2_witness :
    (["https://signed/a.jpg", "https://signed/a.jpg"] : List String).length =
      (["a.jpg", "a.jpg"] : List String).length ∧
    (["https://signed/a.jpg", "https://signed/a.jpg"] : List String).get ⟨0, by decide⟩ =
      urlFor env0 ((["a.jpg", "a.jpg"] : List String).get ⟨0, by decide⟩) := by
  have h := C2_urls_keys_aligned env0 st0 req0
    ["https://signed/a.jpg", "https://signed/a.jpg"] ["a.jpg", "a.jpg"] (by decide)
  exact ⟨h.1, h.2 0 (by decide) (by decide)⟩

/-- C3: two gallery files with byte-for-byte identical content but different
names, processed in order: successfully indexing the first records its
fingerprint in the dedup cache, and the second is then dropped from the loop
with no `index_faces` call and no change of cache or call list. -/
theorem C3_duplicate_content_skipped (env : Env) (st : St)
    (l1 l2 l3 : List String) (p1 p2 : String) (c c1 : Cache) (t1 : List String)
    (bytes : Bytes)
    (h1r : readScratch st p1 = some bytes) (h2r : readScratch st p2 = some bytes)
    (hext1 : hasImageExt p1 = true) (hext2 : hasImageExt p2 = true)
    (hl1 : index_loop env st l1 c [] = .ok (c1, t1))
    (hmiss : c1.find? (fun e => e.1 = env.hashFn bytes) = none)
    (hidx : env.indexFaces p1 = .ok ()) :
    index_loop env st (l1 ++ [p1]) c [] =
      .ok (c1 ++ [(env.hashFn bytes, p1)], t1 ++ [p1]) ∧
    index_loop env st (l1 ++ p1 :: (l2 ++ p2 :: l3)) c [] =
      index_loop env st (l1 ++ p1 :: (l2 ++ l3)) c [] := by
  constructor
  · simp only [index_loop_append, hl1]
    rw [index_loop_step_ok env st p1 [] c1 t1 bytes hext1 h1r hmiss hidx]
    rfl
  · simp only [index_loop_append, hl1]
    rw [index_loop_step_ok env st p1 (l2 ++ p2 :: l3) c1 t1 bytes hext1 h1r hmiss hidx,
      index_loop_step_ok env st p1 (l2 ++ l3) c1 t1 bytes hext1 h1r hmiss hidx]
    simp only [index_loop_append]
    cases h2 : index_loop env st l2 (c1 ++ [(env.hashFn bytes, p1)]) (t1 ++ [p1]) with
    | error e => rfl
    | ok r =>
      obtain ⟨c3, t3⟩ := r
      have hmem : ((c1 ++ [(env.hashFn bytes, p1)]).find?
          (fun e => e.1 = env.hashFn bytes)).isSome = true := by
        rw [List.find?_append, hmiss]
        simp
      obtain ⟨tail, htail⟩ := index_loop_cache_extends env st l2 _ _ _ _ h2
      have hmem3 : (c3.find? (fun e => e.1 = env.hashFn bytes)).isSome = true := by
        rw [htail]
        exact find_isSome_append hmem tail
      exact index_loop_skip_hit env st p2 l3 c3 t3 bytes hext2 h2r hmem3

theorem C3_witness :
    index_loop env0 stDup ["a.jpg"] [] [] = .ok ([("h:X", "a.jpg")], ["a.jpg"]) ∧
    index_loop env0 stDup ["a.jpg", "b.jpg"] [] [] =
      index_loop env0 stDup ["a.jpg"] [] [] :=
  C3_duplicate_content_skipped env0 stDup [] [] [] "a.jpg" "b.jpg" [] [] [] "X"
    (by decide) (by decide) (by decide) (by decide) (by decide) (by decide) (by decide)

/-- C5: a gallery file whose `index_faces` call raises is skipped (the call
is issued but the cache is left unchanged and no entry is recorded for its
fingerprint), the loop continues with the remaining files, and the request
does not fail on its account. -/
theorem C5_index_error_skipped (env : Env) (st : St) (p : String)
    (rest : List String) (c : Cache) (calls : List String) (bytes : Bytes)
    (e : String)
    (hext : hasImageExt p = true) (hr : readScratch st p = some bytes)
    (hmiss : c.find? (fun en => en.1 = env.hashFn bytes) = none)
    (herr : env.indexFaces p = .error e) :
    index_loop env st (p :: rest) c calls = index_loop env st rest c (calls ++ [p]) ∧
    ((∀ q ∈ rest, hasImageExt q = true → (readScratch st q).isSome = true) →
      (index_loop env st (p :: rest) c calls).isOk = true) := by
  constructor
  · exact index_loop_step_err env st p rest c calls bytes e hext hr hmiss herr
  · intro hread
    rw [index_loop_step_err env st p rest c calls bytes e hext hr hmiss herr]
    obtain ⟨c2, t2, hok⟩ := index_loop_total env st rest c (calls ++ [p]) hread
    rw [hok]
    rfl

theorem C5_witness :
    index_loop envIdxFail stDup ["a.jpg", "b.jpg"] [] [] =
      index_loop envIdxFail stDup ["b.jpg"] [] ["a.jpg"] ∧
    (index_loop envIdxFail stDup ["a.jpg", "b.jpg"] [] []).isOk = true := by
  have h := C5_index_error_skipped envIdxFail stDup "a.jpg" ["b.jpg"] [] [] "X"
    "Throttling" (by decide) (by decide) (by decide) (by decide)
  exact ⟨h.1, h.2 (by decide)⟩

/-- C4 counterexample: when the remote search call raises mid-request, the
request terminates with the propagated exception while every file persisted
to scratch is still there — the cleanup sweep never ran, refuting deletion
"regardless of outcome". -/
theorem C4_counterexample :
    (upload_images envSearchFail st0 req0).1 = .error "ServiceFailure" ∧
    (upload_images envSearchFail st0 req0).2.scratch =
      [("a.jpg", "A"), ("b.jpg", "B"), ("ref.jpg", "R")] :=
  ⟨by decide, by decide⟩

/-- C4 amended: the full-directory cleanup sweep runs before responding on
every request that completes with the 200 matches response, leaving the
scratch directory empty; but when a remote call (upload or search) raises
mid-request, the view has no handler and the persisted files remain. -/
theorem C4_cleanup_on_success (env : Env) (st : St) (req : UploadReq)
    (urls keys : List String)
    (h : (upload_images env st req).1 = .ok (.json urls keys)) :
    (upload_images env st req).2.scratch = [] := by
  rcases hu : upload_images env st req with ⟨res, stf⟩
  rw [hu] at h
  have h2 : res = Except.ok (HttpResponse.json urls keys) := h
  rw [h2] at hu
  obtain ⟨_, _, _, _, _, _, _, hscr⟩ :=
    upload_images_ok env st stf req urls keys hu
  exact hscr

theorem C4_witness : (upload_images env0 st0 req0).2.scratch = [] :=
  C4_cleanup_on_success env0 st0 req0
    ["https://signed/a.jpg", "https://signed/a.jpg"] ["a.jpg", "a.jpg"] (by decide)

/-- C6 counterexample: a persisted cache file that exists but is not valid
JSON makes `load_cache` raise the decode error rather than return the empty
mapping. -/
theorem C6_counterexample :
    load_cache stCorrupt = .error "json decode error" ∧ load_cache stCorrupt ≠ .ok [] :=
  ⟨by decide, by decide⟩

/-- C6 amended: `load_cache` returns the empty mapping when no persisted
state exists; but when the persisted state exists and is not valid JSON, the
decode error propagates to the caller instead of yielding an empty mapping. -/
theorem C6_load_cache_amended (st : St) :
    (st.cacheFile = none → load_cache st = .ok []) ∧
    (∀ s, st.cacheFile = some s → parseCacheJson s = none →
      load_cache st = .error "json decode error") := by
  constructor
  · intro h
    unfold load_cache
    rw [h]
  · intro s hs hp
    unfold load_cache
    rw [hs]
    simp [hp]

theorem C6_witness :
    load_cache st0 = .ok [] ∧ load_cache stCorrupt = .error "json decode error" :=
  ⟨(C6_load_cache_amended st0).1 (by decide),
    (C6_load_cache_amended stCorrupt).2 "not a json object" (by decide) (by decide)⟩

/-- C7: a POST to `/upload/` missing the gallery file list or the reference
file gets a 400 client error, and no files are persisted to scratch or
uploaded to the object store (the state is unchanged), provided the
collection-existence call itself returns. -/
theorem C7_missing_files_rejected (env : Env) (st : St) (req : UploadReq)
    (hm : req.method = "POST")
    (hc : ensure_collection_exists env = .ok ())
    (hmiss : req.gallery = [] ∨ req.reference = none) :
    upload_images env st req = (.ok (.jsonError 400 "Missing files"), st) := by
  rcases hmiss with hg | hr
  · simp [upload_images, hm, hc, hg]
  · simp [upload_images, hm, hc, hr]

theorem C7_witness :
    upload_images env0 st0 reqMissingRef = (.ok (.jsonError 400 "Missing files"), st0) :=
  C7_missing_files_rejected env0 st0 reqMissingRef (by decide) (by decide)
    (Or.inr (by decide))

/-- C8: for a non-empty key list, each key is fetched in turn; every key
whose fetch raises is silently omitted, and the produced zip holds exactly
one entry per successfully fetched key, the entry named by the key, with no
error surfaced to the caller. -/
theorem C8_zip_omits_failed_keys (env : Env) (keys : List String) (hne : keys ≠ []) :
    download_zip env "POST" (some keys) =
      .zipFile (keys.filterMap
        (fun k =>
          match env.getObject k with
          | .ok content => some (k, content)
          | .error _ => none)) := by
  simp [download_zip, hne, buildZip_eq_filterMap]

theorem C8_witness :
    download_zip env0 "POST" (some ["a.jpg", "bad.jpg"]) =
      .zipFile [("a.jpg", "obj:a.jpg")] := by
  rw [C8_zip_omits_failed_keys env0 ["a.jpg", "bad.jpg"] (by simp)]
  decide

/-- C9: the batch intersection is a list filter, not a set intersection: the
response keys are exactly the identifiers the search returned that name
batch files, kept with multiplicity (a key returned twice appears twice) and
in the order the remote search returned them. -/
theorem C9_filter_keeps_duplicates (env : Env) (st : St) (req : UploadReq)
    (urls keys allM : List String) (refName : String) (refContent : Bytes)
    (h : (upload_images env st req).1 = .ok (.json urls keys))
    (href : req.reference = some (refName, refContent))
    (hsearch : env.search refContent = .ok allM) :
    keys = allM.filter (fun m => (req.gallery.map Prod.fst).contains m) ∧
    ∀ k, (req.gallery.map Prod.fst).contains k = true →
      keys.count k = allM.count k := by
  rcases hu : upload_images env st req with ⟨res, stf⟩
  rw [hu] at h
  have h2 : res = Except.ok (HttpResponse.json urls keys) := h
  rw [h2] at hu
  obtain ⟨rn, rc, allM2, href2, hsearch2, hkeys, _, _⟩ :=
    upload_images_ok env st stf req urls keys hu
  rw [href] at href2
  injection href2 with hpr
  injection hpr with he1 he2
  subst he1
  subst he2
  rw [hsearch] at hsearch2
  injection hsearch2 with hall
  subst hall
  constructor
  · exact hkeys
  · intro k hk
    rw [hkeys]
    exact List.count_filter hk

theorem C9_witness :
    (["a.jpg", "a.jpg"] : List String) =
      ["a.jpg", "old.jpg", "a.jpg"].filter
        (fun m => (req0.gallery.map Prod.fst).contains m) ∧
    (["a.jpg", "a.jpg"] : List String).count "a.jpg" =
      (["a.jpg", "old.jpg", "a.jpg"] : List String).count "a.jpg" := by
  have h := C9_filter_keeps_duplicates env0 st0 req0
    ["https://signed/a.jpg", "https://signed/a.jpg"] ["a.jpg", "a.jpg"]
    ["a.jpg", "old.jpg", "a.jpg"] "ref.jpg" "R" (by decide) (by decide) (by decide)
  exact ⟨h.1, h.2 "a.jpg" (by decide)⟩

/-- C10: the entries of the produced zip appear in the same order as the
successfully fetched keys appear in the request's key list. -/
theorem C10_zip_entry_order (env : Env) (keys : List String)
    (entries : List (String × Bytes))
    (h : download_zip env "POST" (some keys) = .zipFile entries) :
    entries.map Prod.fst = keys.filter (fun k => (env.getObject k).isOk) := by
  by_cases hk : keys = []
  · subst hk
    simp [download_zip] at h
  · simp [download_zip, hk] at h
    rw [← h, buildZip_names]

theorem C10_witness :
    ([("a.jpg", "obj:a.jpg")] : List (String × Bytes)).map Prod.fst =
      ["a.jpg", "bad.jpg"].filter (fun k => (env0.getObject k).isOk) :=
  C10_zip_entry_order env0 ["a.jpg", "bad.jpg"] [("a.jpg", "obj:a.jpg")] (by decide)

end FaceRec
